import Mathlib

/-!
Shallow embedding of `analyze_tokens.py` (token usage analysis for promptfoo
results) and verification of its specification claims.

Modelling conventions:
* JSON fields that may be absent are `Option`; `dict.get(k, default)` becomes
  `Option.getD` / `Option.bind`.
* Python `int` token counts are `Nat` (promptfoo token counts are nonnegative
  integers); Python `float` cost/percentage arithmetic is modelled by `ℚ`.
* Python dicts (insertion ordered) are association lists `List (String × _)`;
  `defaultdict` update keeps existing keys in place and appends new keys.
* Python str.replace(old, "") removes all non-overlapping occurrences left to
  right; it is modelled by `removeAll` below via a fuel-indexed scanner.
* Process behaviour of `main` (file read, JSON parse, `sys.exit`) is modelled
  by an outcome datatype `ReadOutcome` and the pure functions `load_results`
  and `main_exit`.
-/

namespace AnalyzeTokens

/-! Data model of a promptfoo result record -/

structure TokenUsage where
  total : Option Nat
  prompt : Option Nat
  completion : Option Nat
deriving DecidableEq

structure TokensUsed where
  total : Option Nat
deriving DecidableEq

structure Response where
  tokenUsage : Option TokenUsage
  cost : Option ℚ
deriving DecidableEq

structure GradingResult where
  tokensUsed : Option TokensUsed
deriving DecidableEq

structure Provider where
  id : Option String
deriving DecidableEq

structure Record where
  provider : Option Provider
  response : Option Response
  gradingResult : Option GradingResult
  latencyMs : Option Nat
deriving DecidableEq

/-- Aggregated per-provider metrics, as built by `extract_provider_data`. -/
@[ext]
structure ProviderMetrics where
  total_tokens : Nat
  prompt_tokens : Nat
  completion_tokens : Nat
  assertion_tokens : Nat
  cost : ℚ
  test_count : Nat
  total_latency_ms : Nat
deriving DecidableEq

/-- The `defaultdict` default: all counters zero. -/
def defaultMetrics : ProviderMetrics :=
  { total_tokens := 0, prompt_tokens := 0, completion_tokens := 0
    assertion_tokens := 0, cost := 0, test_count := 0, total_latency_ms := 0 }

/-- Python: result.get("provider", {}).get("id", "unknown"). -/
def Record.providerId (r : Record) : String :=
  (r.provider.bind Provider.id).getD ("unknown")

/-- Python: result.get("response", {}).get("tokenUsage", {}).get("total", 0). -/
def Record.respTokenTotal (r : Record) : Nat :=
  ((r.response.bind Response.tokenUsage).bind TokenUsage.total).getD 0

/-- Python: the same chain ending in .get("prompt", 0). -/
def Record.respTokenPrompt (r : Record) : Nat :=
  ((r.response.bind Response.tokenUsage).bind TokenUsage.prompt).getD 0

/-- Python: the same chain ending in .get("completion", 0). -/
def Record.respTokenCompletion (r : Record) : Nat :=
  ((r.response.bind Response.tokenUsage).bind TokenUsage.completion).getD 0

/-- Python: result.get("gradingResult", {}).get("tokensUsed", {}).get("total", 0). -/
def Record.assertionTokens (r : Record) : Nat :=
  ((r.gradingResult.bind GradingResult.tokensUsed).bind TokensUsed.total).getD 0

/-- Python: result.get("response", {}).get("cost", 0.0). -/
def Record.respCost (r : Record) : ℚ :=
  (r.response.bind Response.cost).getD 0

/-- Python: result.get("latencyMs", 0). -/
def Record.latency (r : Record) : Nat :=
  r.latencyMs.getD 0

/-- One loop-body step of `extract_provider_data`: the seven `+=` updates
applied to the metrics entry of the provider of the record. -/
def addRecord (m : ProviderMetrics) (r : Record) : ProviderMetrics :=
  { total_tokens := m.total_tokens + r.respTokenTotal
    prompt_tokens := m.prompt_tokens + r.respTokenPrompt
    completion_tokens := m.completion_tokens + r.respTokenCompletion
    assertion_tokens := m.assertion_tokens + r.assertionTokens
    cost := m.cost + r.respCost
    test_count := m.test_count + 1
    total_latency_ms := m.total_latency_ms + r.latency }

/-- Python defaultdict write provider_data[pid] += ...: updates the entry of
`pid` in place when present, otherwise appends a fresh default entry at the
end (Python dict insertion order). -/
def updateProvider (acc : List (String × ProviderMetrics)) (pid : String)
    (r : Record) : List (String × ProviderMetrics) :=
  match acc with
  | [] => [(pid, addRecord defaultMetrics r)]
  | (k, v) :: rest =>
    if k = pid then (k, addRecord v r) :: rest
    else (k, v) :: updateProvider rest pid r

/-- The aggregation loop of `extract_provider_data` over the records list
(the function first projects results_data["results"]["results"], modelled
separately by `getRecords`). -/
def extract_provider_data (rs : List Record) : List (String × ProviderMetrics) :=
  rs.foldl (fun acc r => updateProvider acc r.providerId r) []

/-- First-match association-list lookup (Python `dict` access / `.get`). -/
def lookupP {β : Type} (m : List (String × β)) (p : String) : Option β :=
  match m with
  | [] => none
  | (k, v) :: rest => if k = p then some v else lookupP rest p

/-! Model of format_provider_name: Python str.replace(old, "") chains -/

/-- Whether `pat` is an initial segment of `s`. -/
def startsWith : List Char → List Char → Bool
  | [], _ => true
  | _ :: _, [] => false
  | p :: ps, c :: cs => if p = c then startsWith ps cs else false

/-- Whether `pat` occurs as a contiguous substring of `s`. -/
def hasOcc (pat : List Char) : List Char → Bool
  | [] => startsWith pat []
  | c :: rest => startsWith pat (c :: rest) || hasOcc pat rest

/-- Fuel-indexed left-to-right scanner removing every non-overlapping
occurrence of `pat`, as Python s.replace(pat, "") does; one unit of fuel
per character position suffices. -/
def removeAllF : Nat → List Char → List Char → List Char
  | _, _, [] => []
  | 0, _, s => s
  | fuel + 1, pat, c :: rest =>
    if startsWith pat (c :: rest) then
      removeAllF fuel pat (rest.drop (pat.length - 1))
    else
      c :: removeAllF fuel pat rest

/-- Python: s.replace(pat, ""). -/
def removeAll (pat s : List Char) : List Char :=
  removeAllF s.length pat s

def anthropicPat : List Char := "anthropic:".data

def openaiChatPat : List Char := "openai:chat:".data

def openaiPat : List Char := "openai:".data

def chatPat : List Char := "chat:".data

/-- Python: provider_id.replace("anthropic:", "").replace("openai:chat:", "")
followed by .replace("openai:", ""). -/
def format_provider_name (s : String) : String :=
  String.mk (removeAll openaiPat (removeAll openaiChatPat (removeAll anthropicPat s.data)))

/-! `calculate_percentages` -/

/-- Value of Python max(provider_data.items(), key=...)[1]["total_tokens"]
(as a fold; on a nonempty list this is the maximum of the token counts). -/
def maxTokens (pd : List (String × ProviderMetrics)) : Nat :=
  pd.foldl (fun acc x => max acc x.2.total_tokens) 0

/-- Loop body of `calculate_percentages`: `0.0` for the provider matching the
maximum, else `((max_tokens - tokens) / max_tokens) * 100`. -/
def savingsFor (maxTok tok : Nat) : ℚ :=
  if tok = maxTok then 0 else ((maxTok : ℚ) - (tok : ℚ)) / (maxTok : ℚ) * 100

/-- Python: calculate_percentages(provider_data). -/
def calculate_percentages (pd : List (String × ProviderMetrics)) :
    List (String × ℚ) :=
  if pd.isEmpty then []
  else if maxTokens pd = 0 then []
  else pd.map (fun x => (x.1, savingsFor (maxTokens pd) x.2.total_tokens))

/-! `print_comparison_table` (data content of the rendered table) -/

/-- Insertion step of a stable sort by `total_tokens` descending
(`sorted(..., key=..., reverse=True)`). -/
def insertRowDesc (x : String × ProviderMetrics) :
    List (String × ProviderMetrics) → List (String × ProviderMetrics)
  | [] => [x]
  | y :: ys =>
    if x.2.total_tokens < y.2.total_tokens then y :: insertRowDesc x ys
    else x :: y :: ys

/-- Python: sorted(provider_data.items(), key=lambda x: x[1]["total_tokens"],
reverse=True). -/
def sortByTokensDesc : List (String × ProviderMetrics) → List (String × ProviderMetrics)
  | [] => []
  | x :: xs => insertRowDesc x (sortByTokensDesc xs)

/-- The data printed in one row of the comparison table. -/
structure TableRow where
  name : String
  total_tokens : Nat
  cost : ℚ
  savings : ℚ
  test_count : Nat
deriving DecidableEq

/-- Python: percentages.get(provider_id, 0.0), as used when printing a row. -/
def displayedSavings (percentages : List (String × ℚ)) (pid : String) : ℚ :=
  (lookupP percentages pid).getD 0

/-- The rows of the comparison table, in print order. -/
def tableRows (pd : List (String × ProviderMetrics))
    (percentages : List (String × ℚ)) : List TableRow :=
  (sortByTokensDesc pd).map (fun x =>
    { name := format_provider_name x.1
      total_tokens := x.2.total_tokens
      cost := x.2.cost
      savings := displayedSavings percentages x.1
      test_count := x.2.test_count })

/-- Model of print_comparison_table: `none` models the early return printing
"No provider data found in results."; otherwise the table rows are printed. -/
def print_comparison_table (pd : List (String × ProviderMetrics))
    (percentages : List (String × ℚ)) : Option (List TableRow) :=
  if pd.isEmpty then none else some (tableRows pd percentages)

/-! `load_results` and `main` -/

structure ResultsInner where
  results : Option (List Record)
deriving DecidableEq

structure ResultsFile where
  results : Option ResultsInner
deriving DecidableEq

/-- Python: results_data.get("results", {}).get("results", []). -/
def getRecords (d : ResultsFile) : List Record :=
  (d.results.bind ResultsInner.results).getD []

/-- Outcome of opening and JSON-parsing the input file: the file is missing,
or its content fails to parse (with the error detail of the parser), or it parses
to a results structure. -/
inductive ReadOutcome where
  | fileNotFound
  | invalidJson (detail : String)
  | ok (d : ResultsFile)
deriving DecidableEq

/-- Python load_results(filepath): returns the parsed data, or the error message
printed just before `sys.exit(1)`. -/
def load_results (filepath : String) : ReadOutcome → Except String ResultsFile
  | .fileNotFound =>
    .error ("Error: File '" ++ filepath ++ "' not found.")
  | .invalidJson detail =>
    .error ("Error: Invalid JSON in '" ++ filepath ++ "': " ++ detail)
  | .ok d => .ok d

/-- Exit status of `main`: 1 when `load_results` exits (file missing or
invalid JSON) or when aggregation yields no provider data; 0 otherwise. -/
def main_exit (filepath : String) (outcome : ReadOutcome) : Nat :=
  match load_results filepath outcome with
  | .error _ => 1
  | .ok d =>
    if (extract_provider_data (getRecords d)).isEmpty then 1 else 0

/-! Association-list lemmas for the aggregation loop -/

theorem lookupP_updateProvider_self (acc : List (String × ProviderMetrics))
    (pid : String) (r : Record) :
    lookupP (updateProvider acc pid r) pid =
      some (addRecord ((lookupP acc pid).getD defaultMetrics) r) := by
  induction acc with
  | nil => simp [updateProvider, lookupP]
  | cons hd tl ih =>
    obtain ⟨k, v⟩ := hd
    by_cases hk : k = pid
    · subst hk
      simp [updateProvider, lookupP]
    · simp [updateProvider, lookupP, hk, ih]

theorem lookupP_updateProvider_ne (acc : List (String × ProviderMetrics))
    (pid : String) (r : Record) (p : String) (h : p ≠ pid) :
    lookupP (updateProvider acc pid r) p = lookupP acc p := by
  induction acc with
  | nil =>
    simp [updateProvider, lookupP, Ne.symm h]
  | cons hd tl ih =>
    obtain ⟨k, v⟩ := hd
    by_cases hk : k = pid
    · subst hk
      simp [updateProvider, lookupP, Ne.symm h]
    · by_cases hkp : k = p
      · subst hkp
        simp [updateProvider, lookupP, hk]
      · simp [updateProvider, lookupP, hk, hkp, ih]

theorem lookupP_foldl_some (p : String) (rs : List Record) :
    ∀ (acc : List (String × ProviderMetrics)) (m : ProviderMetrics),
      lookupP acc p = some m →
      lookupP (rs.foldl (fun acc r => updateProvider acc r.providerId r) acc) p =
        some ((rs.filter fun r => r.providerId == p).foldl addRecord m) := by
  induction rs with
  | nil => intro acc m h; simpa using h
  | cons r rest ih =>
    intro acc m h
    by_cases hr : r.providerId = p
    · have hstep : lookupP (updateProvider acc r.providerId r) p =
          some (addRecord m r) := by
        rw [hr, lookupP_updateProvider_self, h]
        rfl
      have := ih (updateProvider acc r.providerId r) (addRecord m r) hstep
      simpa [List.filter_cons, hr] using this
    · have hstep : lookupP (updateProvider acc r.providerId r) p = lookupP acc p :=
        lookupP_updateProvider_ne acc r.providerId r p (Ne.symm hr)
      have := ih (updateProvider acc r.providerId r) m (hstep.trans h)
      simpa [List.filter_cons, hr] using this

theorem lookupP_foldl_none (p : String) (rs : List Record) :
    ∀ (acc : List (String × ProviderMetrics)),
      lookupP acc p = none →
      lookupP (rs.foldl (fun acc r => updateProvider acc r.providerId r) acc) p =
        if (rs.filter fun r => r.providerId == p).isEmpty then none
        else some ((rs.filter fun r => r.providerId == p).foldl addRecord defaultMetrics) := by
  induction rs with
  | nil => intro acc h; simpa using h
  | cons r rest ih =>
    intro acc h
    by_cases hr : r.providerId = p
    · have hstep : lookupP (updateProvider acc r.providerId r) p =
          some (addRecord defaultMetrics r) := by
        rw [hr, lookupP_updateProvider_self, h]
        rfl
      have := lookupP_foldl_some p rest (updateProvider acc r.providerId r)
        (addRecord defaultMetrics r) hstep
      simpa [List.filter_cons, hr] using this
    · have hstep : lookupP (updateProvider acc r.providerId r) p = lookupP acc p :=
        lookupP_updateProvider_ne acc r.providerId r p (Ne.symm hr)
      have := ih (updateProvider acc r.providerId r) (hstep.trans h)
      simpa [List.filter_cons, hr] using this

/-- Characterization of a lookup in the aggregated mapping: the entry of `p`
exists iff some record maps to `p`, and then it is the fold of the per-record
updates over exactly those records. -/
theorem lookupP_extract (rs : List Record) (p : String) :
    lookupP (extract_provider_data rs) p =
      if (rs.filter fun r => r.providerId == p).isEmpty then none
      else some ((rs.filter fun r => r.providerId == p).foldl addRecord defaultMetrics) :=
  lookupP_foldl_none p rs [] rfl

/-- Closed form of folding `addRecord`: every metric field is the initial
value plus the sum of the per-record contributions of that field. -/
theorem foldl_addRecord_eq (l : List Record) :
    ∀ d : ProviderMetrics,
      l.foldl addRecord d =
        { total_tokens := d.total_tokens + (l.map Record.respTokenTotal).sum
          prompt_tokens := d.prompt_tokens + (l.map Record.respTokenPrompt).sum
          completion_tokens := d.completion_tokens + (l.map Record.respTokenCompletion).sum
          assertion_tokens := d.assertion_tokens + (l.map Record.assertionTokens).sum
          cost := d.cost + (l.map Record.respCost).sum
          test_count := d.test_count + l.length
          total_latency_ms := d.total_latency_ms + (l.map Record.latency).sum } := by
  induction l with
  | nil => intro d; ext <;> simp
  | cons r t ih =>
    intro d
    rw [List.foldl_cons, ih]
    ext <;> simp [addRecord] <;> ring

theorem lookupP_eq_none_iff {β : Type} (m : List (String × β)) (p : String) :
    lookupP m p = none ↔ p ∉ m.map Prod.fst := by
  induction m with
  | nil => simp [lookupP]
  | cons hd tl ih =>
    obtain ⟨k, v⟩ := hd
    by_cases hk : k = p
    · subst hk; simp [lookupP]
    · simp [lookupP, hk, ih, Ne.symm hk]

theorem sum_total_updateProvider (acc : List (String × ProviderMetrics))
    (pid : String) (r : Record) :
    ((updateProvider acc pid r).map fun x => x.2.total_tokens).sum =
      (acc.map fun x => x.2.total_tokens).sum + r.respTokenTotal := by
  induction acc with
  | nil => simp [updateProvider, addRecord, defaultMetrics]
  | cons hd tl ih =>
    obtain ⟨k, v⟩ := hd
    by_cases hk : k = pid
    · subst hk
      simp [updateProvider, addRecord]
      omega
    · simp [updateProvider, hk, ih]
      omega

theorem sum_total_foldl (rs : List Record) :
    ∀ acc : List (String × ProviderMetrics),
      (((rs.foldl (fun acc r => updateProvider acc r.providerId r) acc)).map
          fun x => x.2.total_tokens).sum =
        (acc.map fun x => x.2.total_tokens).sum + (rs.map Record.respTokenTotal).sum := by
  induction rs with
  | nil => intro acc; simp
  | cons r rest ih =>
    intro acc
    rw [List.foldl_cons, ih, sum_total_updateProvider]
    simp
    omega

/-! Bounds for `maxTokens` -/

theorem init_le_foldl_max (pd : List (String × ProviderMetrics)) :
    ∀ a : Nat, a ≤ pd.foldl (fun acc x => max acc x.2.total_tokens) a := by
  induction pd with
  | nil => intro a; simp
  | cons y tl ih =>
    intro a
    calc a ≤ max a y.2.total_tokens := le_max_left _ _
    _ ≤ _ := ih (max a y.2.total_tokens)

theorem mem_le_foldl_max (pd : List (String × ProviderMetrics)) :
    ∀ (a : Nat) (x : String × ProviderMetrics), x ∈ pd →
      x.2.total_tokens ≤ pd.foldl (fun acc x => max acc x.2.total_tokens) a := by
  induction pd with
  | nil => intro a x hx; simp at hx
  | cons y tl ih =>
    intro a x hx
    rcases List.mem_cons.1 hx with h | h
    · subst h
      calc x.2.total_tokens ≤ max a x.2.total_tokens := le_max_right _ _
      _ ≤ _ := init_le_foldl_max tl _
    · exact ih _ x h

theorem le_maxTokens (pd : List (String × ProviderMetrics))
    (x : String × ProviderMetrics) (hx : x ∈ pd) :
    x.2.total_tokens ≤ maxTokens pd :=
  mem_le_foldl_max pd 0 x hx

theorem maxTokens_all_zero : ∀ pd : List (String × ProviderMetrics),
    (∀ x ∈ pd, x.2.total_tokens = 0) → maxTokens pd = 0 := by
  intro pd
  induction pd with
  | nil => intro _; rfl
  | cons y tl ih =>
    intro h
    have hy := h y (List.mem_cons_self _ _)
    have htl := ih (fun x hx => h x (List.mem_cons_of_mem _ hx))
    unfold maxTokens at htl ⊢
    simpa [hy] using htl

/-! Sorting lemmas for the comparison table -/

theorem insertRowDesc_length (x : String × ProviderMetrics)
    (l : List (String × ProviderMetrics)) :
    (insertRowDesc x l).length = l.length + 1 := by
  induction l with
  | nil => rfl
  | cons y ys ih =>
    by_cases h : x.2.total_tokens < y.2.total_tokens <;>
      simp [insertRowDesc, h, ih]

theorem sortByTokensDesc_length (l : List (String × ProviderMetrics)) :
    (sortByTokensDesc l).length = l.length := by
  induction l with
  | nil => rfl
  | cons x xs ih => simp [sortByTokensDesc, insertRowDesc_length, ih]

theorem mem_insertRowDesc (x y : String × ProviderMetrics)
    (l : List (String × ProviderMetrics)) :
    y ∈ insertRowDesc x l ↔ y = x ∨ y ∈ l := by
  induction l with
  | nil => simp [insertRowDesc]
  | cons z zs ih =>
    by_cases h : x.2.total_tokens < z.2.total_tokens
    · simp [insertRowDesc, h, ih]
      tauto
    · simp [insertRowDesc, h, ih]

theorem mem_sortByTokensDesc (y : String × ProviderMetrics)
    (l : List (String × ProviderMetrics)) :
    y ∈ sortByTokensDesc l ↔ y ∈ l := by
  induction l with
  | nil => simp [sortByTokensDesc]
  | cons x xs ih => simp [sortByTokensDesc, mem_insertRowDesc, ih]

/-! Lemmas about the `str.replace` model -/

theorem startsWith_append_self : ∀ pat t : List Char, startsWith pat (pat ++ t) = true := by
  intro pat
  induction pat with
  | nil => intro t; rfl
  | cons p ps ih => intro t; simp [startsWith, ih]

theorem startsWith_append_both : ∀ a b c : List Char,
    startsWith (a ++ b) (a ++ c) = startsWith b c := by
  intro a
  induction a with
  | nil => intro b c; rfl
  | cons x xs ih => intro b c; simp [startsWith, ih]

theorem hasOcc_append_self : ∀ a pat b : List Char,
    hasOcc pat (a ++ (pat ++ b)) = true := by
  intro a
  induction a with
  | nil =>
    intro pat b
    cases pat with
    | nil => cases b <;> simp [hasOcc, startsWith]
    | cons p ps =>
      have h1 : startsWith (p :: ps) (p :: (ps ++ b)) = true := by
        have := startsWith_append_self (p :: ps) b
        simpa using this
      simp [hasOcc, h1]
  | cons c cs ih =>
    intro pat b
    simp [hasOcc, ih]

/-- The scanner is fuel-insensitive once the fuel covers the input length. -/
theorem removeAllF_congr : ∀ (f1 : Nat) (pat s : List Char) (f2 : Nat),
    s.length ≤ f1 → s.length ≤ f2 → removeAllF f1 pat s = removeAllF f2 pat s := by
  intro f1
  induction f1 with
  | zero =>
    intro pat s f2 h1 h2
    have hs : s = [] := List.eq_nil_of_length_eq_zero (Nat.le_zero.1 h1)
    subst hs
    cases f2 <;> rfl
  | succ n ih =>
    intro pat s f2 h1 h2
    cases s with
    | nil => cases f2 <;> rfl
    | cons c rest =>
      cases f2 with
      | zero => simp at h2
      | succ m =>
        simp only [removeAllF]
        by_cases hc : startsWith pat (c :: rest) = true
        · rw [if_pos hc, if_pos hc]
          apply ih
          · simp only [List.length_drop]
            simp at h1
            omega
          · simp only [List.length_drop]
            simp at h2
            omega
        · rw [if_neg hc, if_neg hc]
          have h3 : removeAllF n pat rest = removeAllF m pat rest := by
            apply ih
            · simp at h1; omega
            · simp at h2; omega
          rw [h3]

/-- A string with no occurrence of the pattern is left unchanged. -/
theorem removeAll_of_hasOcc_false : ∀ pat s : List Char,
    hasOcc pat s = false → removeAll pat s = s := by
  intro pat s
  induction s with
  | nil => intro _; rfl
  | cons c rest ih =>
    intro h
    simp only [hasOcc, Bool.or_eq_false_iff] at h
    show removeAllF (c :: rest).length pat (c :: rest) = c :: rest
    simp only [List.length_cons, removeAllF, h.1, if_false]
    exact congrArg (c :: ·) (ih h.2)

/-- Removing a pattern from a string that starts with it continues on the
remainder. -/
theorem removeAll_append_self : ∀ (p : Char) (ps rest : List Char),
    removeAll (p :: ps) ((p :: ps) ++ rest) = removeAll (p :: ps) rest := by
  intro p ps rest
  show removeAllF ((p :: ps) ++ rest).length (p :: ps) (p :: (ps ++ rest)) = _
  have hlen : ((p :: ps) ++ rest).length = (ps.length + rest.length) + 1 := by
    simp
  rw [hlen]
  have hsw : startsWith (p :: ps) (p :: (ps ++ rest)) = true := by
    have := startsWith_append_self (p :: ps) rest
    simpa using this
  simp only [removeAllF]
  rw [if_pos hsw]
  have hdrop : (ps ++ rest).drop ((p :: ps).length - 1) = rest := by
    simp [List.drop_left]
  rw [hdrop]
  exact removeAllF_congr (ps.length + rest.length) (p :: ps) rest rest.length
    (by omega) (le_refl _)

theorem hasOcc_anthropic_openaiChat (rest : List Char) :
    hasOcc anthropicPat (openaiChatPat ++ rest) = hasOcc anthropicPat rest := by
  simp [hasOcc, startsWith, anthropicPat, openaiChatPat]

theorem hasOcc_anthropic_openai (rest : List Char) :
    hasOcc anthropicPat (openaiPat ++ rest) = hasOcc anthropicPat rest := by
  simp [hasOcc, startsWith, anthropicPat, openaiPat]

theorem hasOcc_openaiChat_openai (rest : List Char) :
    hasOcc openaiChatPat (openaiPat ++ rest) =
      (startsWith chatPat rest || hasOcc openaiChatPat rest) := by
  simp [hasOcc, startsWith, openaiChatPat, openaiPat, chatPat]

/-- Stripping a nonempty pattern from a string that begins with it continues
on the remainder of the string. -/
theorem removeAll_append_head (pat rest : List Char) (h : pat ≠ []) :
    removeAll pat (pat ++ rest) = removeAll pat rest := by
  cases pat with
  | nil => exact absurd rfl h
  | cons p ps => exact removeAll_append_self p ps rest

/-! Sample data used by the witness theorems -/

/-- A record with every optional field present. -/
def recW1 : Record :=
  { provider := some ⟨some ("w")⟩
    response := some ⟨some ⟨some 5, some 2, some 3⟩, none⟩
    gradingResult := some ⟨some ⟨some 7⟩⟩
    latencyMs := some 10 }

/-- A record with every optional field absent. -/
def recU : Record :=
  { provider := none, response := none, gradingResult := none, latencyMs := none }

/-- A record attributed to provider "b". -/
def recV : Record :=
  { provider := some ⟨some ("b")⟩, response := none, gradingResult := none
    latencyMs := some 3 }

/-- Metrics entry aggregating `recW1` twice. -/
def mW1 : ProviderMetrics :=
  { total_tokens := 10, prompt_tokens := 4, completion_tokens := 6
    assertion_tokens := 14, cost := 0, test_count := 2, total_latency_ms := 20 }

/-- Metrics with a given token count and all other fields trivial. -/
def mTok (n : Nat) : ProviderMetrics :=
  { total_tokens := n, prompt_tokens := 0, completion_tokens := 0
    assertion_tokens := 0, cost := 0, test_count := 1, total_latency_ms := 0 }

/-! Claims -/

/-- Claim C1: in the mapping returned by `extract_provider_data`, each
provider has `total_tokens` equal to the sum of the response `tokenUsage.total`
values (defaulting to 0 when absent) of exactly the records whose provider id
maps to that provider; consequently the sum of `total_tokens` over all
providers equals the sum of per-record totals. -/
theorem total_tokens_eq_sum (rs : List Record) (p : String) (m : ProviderMetrics)
    (h : lookupP (extract_provider_data rs) p = some m) :
    m.total_tokens =
      ((rs.filter fun r => r.providerId == p).map Record.respTokenTotal).sum ∧
    ((extract_provider_data rs).map fun x => x.2.total_tokens).sum =
      (rs.map Record.respTokenTotal).sum := by
  constructor
  · rw [lookupP_extract] at h
    by_cases hF : ((rs.filter fun r => r.providerId == p).isEmpty) = true
    · rw [if_pos hF] at h
      exact absurd h (by simp)
    · rw [if_neg hF] at h
      have hm : m = (rs.filter fun r => r.providerId == p).foldl addRecord defaultMetrics :=
        (Option.some.inj h).symm
      rw [hm, foldl_addRecord_eq]
      simp [defaultMetrics]
  · have := sum_total_foldl rs []
    simpa [extract_provider_data] using this

theorem total_tokens_eq_sum_witness :
    lookupP (extract_provider_data [recW1, recW1]) "w" = some mW1 ∧
    (mW1.total_tokens =
        (([recW1, recW1].filter fun r => r.providerId == "w").map Record.respTokenTotal).sum ∧
      ((extract_provider_data [recW1, recW1]).map fun x => x.2.total_tokens).sum =
        ([recW1, recW1].map Record.respTokenTotal).sum) :=
  ⟨by norm_num [extract_provider_data, updateProvider, addRecord, defaultMetrics,
      lookupP, Record.providerId, Record.respTokenTotal, Record.respTokenPrompt,
      Record.respTokenCompletion, Record.assertionTokens, Record.respCost,
      Record.latency, recW1, mW1],
   total_tokens_eq_sum [recW1, recW1] "w" mW1
     (by norm_num [extract_provider_data, updateProvider, addRecord, defaultMetrics,
        lookupP, Record.providerId, Record.respTokenTotal, Record.respTokenPrompt,
        Record.respTokenCompletion, Record.assertionTokens, Record.respCost,
        Record.latency, recW1, mW1])⟩

/-- Claim C9: for every provider in the aggregated mapping, `test_count`
equals the number of records whose (possibly defaulted) provider id equals
that provider, independent of which numeric fields were present. -/
theorem test_count_eq_filter_length (rs : List Record) (p : String)
    (m : ProviderMetrics)
    (h : lookupP (extract_provider_data rs) p = some m) :
    m.test_count = (rs.filter fun r => r.providerId == p).length := by
  rw [lookupP_extract] at h
  by_cases hF : ((rs.filter fun r => r.providerId == p).isEmpty) = true
  · rw [if_pos hF] at h
    exact absurd h (by simp)
  · rw [if_neg hF] at h
    have hm : m = (rs.filter fun r => r.providerId == p).foldl addRecord defaultMetrics :=
      (Option.some.inj h).symm
    rw [hm, foldl_addRecord_eq]
    simp [defaultMetrics]

theorem test_count_eq_filter_length_witness :
    lookupP (extract_provider_data [recW1, recW1]) "w" = some mW1 ∧
    mW1.test_count = ([recW1, recW1].filter fun r => r.providerId == "w").length :=
  ⟨by norm_num [extract_provider_data, updateProvider, addRecord, defaultMetrics,
      lookupP, Record.providerId, Record.respTokenTotal, Record.respTokenPrompt,
      Record.respTokenCompletion, Record.assertionTokens, Record.respCost,
      Record.latency, recW1, mW1],
   test_count_eq_filter_length [recW1, recW1] "w" mW1
     (by norm_num [extract_provider_data, updateProvider, addRecord, defaultMetrics,
        lookupP, Record.providerId, Record.respTokenTotal, Record.respTokenPrompt,
        Record.respTokenCompletion, Record.assertionTokens, Record.respCost,
        Record.latency, recW1, mW1])⟩

/-- Claim C3: `calculate_percentages` returns an empty mapping iff the input
mapping is empty or the maximum `total_tokens` across its providers is 0;
otherwise the returned mapping is non-empty. -/
theorem calculate_percentages_empty_iff (pd : List (String × ProviderMetrics)) :
    calculate_percentages pd = [] ↔ pd = [] ∨ maxTokens pd = 0 := by
  by_cases h1 : pd.isEmpty = true
  · have hpd : pd = [] := by
      cases pd
      · rfl
      · simp at h1
    simp [calculate_percentages, hpd]
  · have hpd : pd ≠ [] := by
      intro hc
      subst hc
      exact h1 rfl
    by_cases h2 : maxTokens pd = 0
    · simp [calculate_percentages, h1, h2]
    · simp [calculate_percentages, h1, h2, hpd]

/-- Claim C8: the aggregator is total on records with any combination of
absent fields: it substitutes "unknown" for a missing provider id, 0 for each
missing token count and latency, 0.0 for a missing cost, and still counts the
record; in particular the fully absent record yields exactly the default
entry with `test_count` 1. -/
theorem extract_singleton_defaults (r : Record) :
    extract_provider_data [r] =
      [((r.provider.bind Provider.id).getD ("unknown"),
        { total_tokens := ((r.response.bind Response.tokenUsage).bind TokenUsage.total).getD 0
          prompt_tokens := ((r.response.bind Response.tokenUsage).bind TokenUsage.prompt).getD 0
          completion_tokens :=
            ((r.response.bind Response.tokenUsage).bind TokenUsage.completion).getD 0
          assertion_tokens :=
            ((r.gradingResult.bind GradingResult.tokensUsed).bind TokensUsed.total).getD 0
          cost := (r.response.bind Response.cost).getD 0
          test_count := 1
          total_latency_ms := r.latencyMs.getD 0 })] ∧
    extract_provider_data [recU] =
      [("unknown",
        { total_tokens := 0, prompt_tokens := 0, completion_tokens := 0
          assertion_tokens := 0, cost := 0, test_count := 1, total_latency_ms := 0 })] := by
  constructor
  · simp [extract_provider_data, updateProvider, addRecord, defaultMetrics,
      Record.providerId, Record.respTokenTotal, Record.respTokenPrompt,
      Record.respTokenCompletion, Record.assertionTokens, Record.respCost,
      Record.latency]
  · simp [extract_provider_data, updateProvider, addRecord, defaultMetrics,
      Record.providerId, Record.respTokenTotal, Record.respTokenPrompt,
      Record.respTokenCompletion, Record.assertionTokens, Record.respCost,
      Record.latency, recU]

/-- Claim C10: aggregation is order-insensitive: permuting the record
sequence yields an extensionally equal mapping — every provider key has the
same lookup result, and the key sets coincide. -/
theorem extract_perm_invariant (rs rs2 : List Record) (h : rs.Perm rs2) :
    (∀ p, lookupP (extract_provider_data rs) p = lookupP (extract_provider_data rs2) p) ∧
    (∀ p, p ∈ (extract_provider_data rs).map Prod.fst ↔
      p ∈ (extract_provider_data rs2).map Prod.fst) := by
  have key : ∀ p, lookupP (extract_provider_data rs) p =
      lookupP (extract_provider_data rs2) p := by
    intro p
    rw [lookupP_extract, lookupP_extract]
    have hfp : (rs.filter fun r => r.providerId == p).Perm
        (rs2.filter fun r => r.providerId == p) := h.filter _
    by_cases hF : (rs.filter fun r => r.providerId == p) = []
    · have hF2 : (rs2.filter fun r => r.providerId == p) = [] := by
        have hp2 := hfp
        rw [hF] at hp2
        exact (hp2.symm).eq_nil
      rw [hF, hF2]
    · have hF2 : (rs2.filter fun r => r.providerId == p) ≠ [] := by
        intro hc
        apply hF
        have hp2 := hfp
        rw [hc] at hp2
        exact hp2.eq_nil
      have hIs : ((rs.filter fun r => r.providerId == p).isEmpty) = false := by
        simpa using hF
      have hIs2 : ((rs2.filter fun r => r.providerId == p).isEmpty) = false := by
        simpa using hF2
      rw [hIs, hIs2]
      simp only [Bool.false_eq_true, if_false]
      have hsum : (rs.filter fun r => r.providerId == p).foldl addRecord defaultMetrics =
          (rs2.filter fun r => r.providerId == p).foldl addRecord defaultMetrics := by
        rw [foldl_addRecord_eq, foldl_addRecord_eq]
        have hl := hfp.length_eq
        have e1 := (hfp.map Record.respTokenTotal).sum_eq
        have e2 := (hfp.map Record.respTokenPrompt).sum_eq
        have e3 := (hfp.map Record.respTokenCompletion).sum_eq
        have e4 := (hfp.map Record.assertionTokens).sum_eq
        have e5 := (hfp.map Record.respCost).sum_eq
        have e6 := (hfp.map Record.latency).sum_eq
        simp [hl, e1, e2, e3, e4, e5, e6]
      rw [hsum]
  refine ⟨key, fun p => ?_⟩
  have k1 := lookupP_eq_none_iff (extract_provider_data rs) p
  have k2 := lookupP_eq_none_iff (extract_provider_data rs2) p
  constructor
  · intro hp
    by_contra hq
    exact (k1.1 ((key p).trans (k2.2 hq))) hp
  · intro hp
    by_contra hq
    exact (k2.1 ((key p).symm.trans (k1.2 hq))) hp

theorem extract_perm_invariant_witness :
    ([recU, recV].Perm [recV, recU]) ∧
    (∀ p, lookupP (extract_provider_data [recU, recV]) p =
      lookupP (extract_provider_data [recV, recU]) p) ∧
    (∀ p, p ∈ (extract_provider_data [recU, recV]).map Prod.fst ↔
      p ∈ (extract_provider_data [recV, recU]).map Prod.fst) :=
  ⟨by decide,
   (extract_perm_invariant [recU, recV] [recV, recU] (by decide)).1,
   (extract_perm_invariant [recU, recV] [recV, recU] (by decide)).2⟩

/-- Claim C2 (counterexample): a provider with 0 tokens while the maximum is
10 receives savings exactly 100, which is not strictly below 100, refuting
the claim that the savings of every non-maximal provider lies in (0, 100). -/
theorem savings_not_lt_100_counterexample :
    lookupP (calculate_percentages [("a", mTok 10), ("b", mTok 0)]) "b" = some 100 ∧
    ¬ ((100 : ℚ) < 100) := by
  constructor
  · norm_num [calculate_percentages, maxTokens, savingsFor, lookupP, mTok]
    decide
  · norm_num

/-- Claim C2 (amended): on a non-empty mapping with nonzero maximum,
`calculate_percentages` assigns 0 to every provider whose `total_tokens`
equals the maximum, and to every other provider the value
`(max - tokens) / max * 100`, which lies in (0, 100] — equal to 100 exactly
when that provider has `total_tokens` 0. -/
theorem calculate_percentages_savings_spec (pd : List (String × ProviderMetrics))
    (h1 : pd ≠ []) (h2 : maxTokens pd ≠ 0) :
    ∀ q ∈ calculate_percentages pd, ∃ d, (q.1, d) ∈ pd ∧
      (d.total_tokens = maxTokens pd → q.2 = 0) ∧
      (d.total_tokens ≠ maxTokens pd →
        q.2 = ((maxTokens pd : ℚ) - (d.total_tokens : ℚ)) / (maxTokens pd : ℚ) * 100 ∧
        0 < q.2 ∧ q.2 ≤ 100 ∧ (q.2 = 100 ↔ d.total_tokens = 0)) := by
  intro q hq
  have hne : pd.isEmpty = false := by
    cases pd
    · exact absurd rfl h1
    · rfl
  rw [calculate_percentages] at hq
  rw [hne] at hq
  simp only [Bool.false_eq_true, if_false, if_neg h2] at hq
  obtain ⟨x, hx, hxq⟩ := List.mem_map.1 hq
  have hq1 : q.1 = x.1 := by rw [← hxq]
  have hq2 : q.2 = savingsFor (maxTokens pd) x.2.total_tokens := by rw [← hxq]
  refine ⟨x.2, ?_, ?_, ?_⟩
  · rw [hq1]
    simpa using hx
  · intro heq
    rw [hq2]
    simp [savingsFor, heq]
  · intro hnemax
    have hform : q.2 = ((maxTokens pd : ℚ) - (x.2.total_tokens : ℚ)) /
        (maxTokens pd : ℚ) * 100 := by
      rw [hq2]
      simp [savingsFor, hnemax]
    have hle : x.2.total_tokens ≤ maxTokens pd := le_maxTokens pd x hx
    have hlt : x.2.total_tokens < maxTokens pd := lt_of_le_of_ne hle hnemax
    have hMq : (0 : ℚ) < (maxTokens pd : ℚ) := by
      exact_mod_cast Nat.pos_of_ne_zero h2
    have hltq : (x.2.total_tokens : ℚ) < (maxTokens pd : ℚ) := by exact_mod_cast hlt
    have htnn : (0 : ℚ) ≤ (x.2.total_tokens : ℚ) := by positivity
    refine ⟨hform, ?_, ?_, ?_⟩
    · rw [hform]
      apply mul_pos _ (by norm_num)
      exact div_pos (by linarith) hMq
    · rw [hform]
      have hdivle : ((maxTokens pd : ℚ) - (x.2.total_tokens : ℚ)) /
          (maxTokens pd : ℚ) ≤ 1 := by
        rw [div_le_one hMq]
        linarith
      calc ((maxTokens pd : ℚ) - (x.2.total_tokens : ℚ)) / (maxTokens pd : ℚ) * 100
          ≤ 1 * 100 := mul_le_mul_of_nonneg_right hdivle (by norm_num)
      _ = 100 := by norm_num
    · rw [hform]
      constructor
      · intro he
        have hM0 : (maxTokens pd : ℚ) ≠ 0 := ne_of_gt hMq
        field_simp at he
        have ht : (x.2.total_tokens : ℚ) = 0 := by linarith
        exact_mod_cast ht
      · intro ht
        rw [ht]
        push_cast
        rw [sub_zero, div_self (ne_of_gt hMq)]
        norm_num

theorem calculate_percentages_savings_spec_witness :
    ([("a", mTok 10), ("b", mTok 4)] ≠ ([] : List (String × ProviderMetrics))) ∧
    maxTokens [("a", mTok 10), ("b", mTok 4)] ≠ 0 ∧
    ∀ q ∈ calculate_percentages [("a", mTok 10), ("b", mTok 4)], ∃ d,
      (q.1, d) ∈ [("a", mTok 10), ("b", mTok 4)] ∧
      (d.total_tokens = maxTokens [("a", mTok 10), ("b", mTok 4)] → q.2 = 0) ∧
      (d.total_tokens ≠ maxTokens [("a", mTok 10), ("b", mTok 4)] →
        q.2 = ((maxTokens [("a", mTok 10), ("b", mTok 4)] : ℚ) - (d.total_tokens : ℚ)) /
            (maxTokens [("a", mTok 10), ("b", mTok 4)] : ℚ) * 100 ∧
        0 < q.2 ∧ q.2 ≤ 100 ∧ (q.2 = 100 ↔ d.total_tokens = 0)) :=
  ⟨by simp, by decide,
   calculate_percentages_savings_spec [("a", mTok 10), ("b", mTok 4)]
     (by simp) (by decide)⟩

/-- Claim C4: the modelled process exits with status 1 exactly when the file
is missing, its content is not valid JSON, or aggregation yields an empty
provider mapping, and with status 0 otherwise; the file-missing message
contains the attempted path, and the parse-error message contains both the
path and the parse error detail. -/
theorem main_exit_spec (path detail : String) (outcome : ReadOutcome) :
    (main_exit path outcome = 1 ↔
      (outcome = ReadOutcome.fileNotFound ∨
        (∃ e, outcome = ReadOutcome.invalidJson e) ∨
        ∃ d, outcome = ReadOutcome.ok d ∧
          (extract_provider_data (getRecords d)).isEmpty = true)) ∧
    (main_exit path outcome = 0 ↔
      ∃ d, outcome = ReadOutcome.ok d ∧
        (extract_provider_data (getRecords d)).isEmpty = false) ∧
    (∃ msg, load_results path ReadOutcome.fileNotFound = Except.error msg ∧
      hasOcc path.data msg.data = true) ∧
    (∃ msg, load_results path (ReadOutcome.invalidJson detail) = Except.error msg ∧
      hasOcc path.data msg.data = true ∧ hasOcc detail.data msg.data = true) := by
  refine ⟨?_, ?_, ?_, ?_⟩
  · cases outcome with
    | fileNotFound => simp [main_exit, load_results]
    | invalidJson e => simp [main_exit, load_results]
    | ok d =>
      by_cases hd : extract_provider_data (getRecords d) = []
      · simp [main_exit, load_results, hd]
      · simp [main_exit, load_results, hd]
  · cases outcome with
    | fileNotFound => simp [main_exit, load_results]
    | invalidJson e => simp [main_exit, load_results]
    | ok d =>
      by_cases hd : extract_provider_data (getRecords d) = []
      · simp [main_exit, load_results, hd]
      · simp [main_exit, load_results, hd]
  · refine ⟨"Error: File '" ++ path ++ "' not found.", rfl, ?_⟩
    have hdata : ("Error: File '" ++ path ++ "' not found.").data =
        ("Error: File '").data ++ (path.data ++ ("' not found.").data) := by
      simp [String.data_append]
    rw [hdata]
    exact hasOcc_append_self _ _ _
  · refine ⟨"Error: Invalid JSON in '" ++ path ++ "': " ++ detail, rfl, ?_, ?_⟩
    · have hdata : ("Error: Invalid JSON in '" ++ path ++ "': " ++ detail).data =
          ("Error: Invalid JSON in '").data ++
            (path.data ++ (("': ").data ++ detail.data)) := by
        simp [String.data_append]
      rw [hdata]
      exact hasOcc_append_self _ _ _
    · have hdata : ("Error: Invalid JSON in '" ++ path ++ "': " ++ detail).data =
          ("Error: Invalid JSON in '" ++ path ++ "': ").data ++ (detail.data ++ []) := by
        simp [String.data_append]
      rw [hdata]
      exact hasOcc_append_self _ _ _

/-- Claim C5: when every provider of a non-empty metrics mapping has
`total_tokens` 0, `calculate_percentages` returns the empty mapping, and the
comparison table is still rendered in full — one row per provider — with a
displayed savings of 0 for every provider via the lookup default. -/
theorem all_zero_tokens_table (pd : List (String × ProviderMetrics))
    (h1 : pd ≠ []) (h2 : ∀ x ∈ pd, x.2.total_tokens = 0) :
    calculate_percentages pd = [] ∧
    print_comparison_table pd (calculate_percentages pd) =
      some (tableRows pd (calculate_percentages pd)) ∧
    (tableRows pd (calculate_percentages pd)).length = pd.length ∧
    ∀ row ∈ tableRows pd (calculate_percentages pd), row.savings = 0 := by
  have hmax : maxTokens pd = 0 := maxTokens_all_zero pd h2
  have hcp : calculate_percentages pd = [] := by
    simp [calculate_percentages, hmax]
  have hne : pd.isEmpty = false := by
    cases pd
    · exact absurd rfl h1
    · rfl
  refine ⟨hcp, ?_, ?_, ?_⟩
  · simp [print_comparison_table, hne]
  · simp [tableRows, sortByTokensDesc_length]
  · intro row hrow
    rw [hcp] at hrow
    simp only [tableRows, List.mem_map] at hrow
    obtain ⟨x, hx, hxrow⟩ := hrow
    rw [← hxrow]
    simp [displayedSavings, lookupP]

theorem all_zero_tokens_table_witness :
    ([("a", mTok 0), ("b", mTok 0)] ≠ ([] : List (String × ProviderMetrics))) ∧
    (∀ x ∈ [("a", mTok 0), ("b", mTok 0)], x.2.total_tokens = 0) ∧
    (calculate_percentages [("a", mTok 0), ("b", mTok 0)] = [] ∧
      print_comparison_table [("a", mTok 0), ("b", mTok 0)]
          (calculate_percentages [("a", mTok 0), ("b", mTok 0)]) =
        some (tableRows [("a", mTok 0), ("b", mTok 0)]
          (calculate_percentages [("a", mTok 0), ("b", mTok 0)])) ∧
      (tableRows [("a", mTok 0), ("b", mTok 0)]
          (calculate_percentages [("a", mTok 0), ("b", mTok 0)])).length =
        ([("a", mTok 0), ("b", mTok 0)] : List (String × ProviderMetrics)).length ∧
      ∀ row ∈ tableRows [("a", mTok 0), ("b", mTok 0)]
          (calculate_percentages [("a", mTok 0), ("b", mTok 0)]), row.savings = 0) :=
  ⟨by simp, by decide,
   all_zero_tokens_table [("a", mTok 0), ("b", mTok 0)] (by simp) (by decide)⟩

/-- Claim C6 (counterexample): an identifier that does not begin with any
recognized marker is nevertheless changed, because the code removes the
literal substrings everywhere in the string, not only at the front. -/
theorem format_changes_unrecognized_counterexample :
    format_provider_name ("x-anthropic:y") ≠ "x-anthropic:y" ∧
    format_provider_name ("x-anthropic:y") = "x-y" := by
  constructor
  · decide
  · decide

/-- Claim C6 (amended): `format_provider_name` removes every occurrence of
"anthropic:", then of "openai:chat:", then of "openai:", anywhere in the
identifier. In particular an identifier containing no occurrence of the three
strings is returned unchanged, and an identifier consisting of one known
marker followed by a remainder free of all three strings (and, for "openai:",
not extending it to "openai:chat:") has exactly that marker removed. -/
theorem format_strips_known_pat (pat rest : List Char)
    (hp : pat = [] ∨ pat = anthropicPat ∨ pat = openaiChatPat ∨ pat = openaiPat)
    (hA : hasOcc anthropicPat rest = false)
    (hOC : hasOcc openaiChatPat rest = false)
    (hO : hasOcc openaiPat rest = false)
    (hchat : pat = openaiPat → startsWith chatPat rest = false) :
    format_provider_name (String.mk (pat ++ rest)) = String.mk rest := by
  have hdata : (String.mk (pat ++ rest)).data = pat ++ rest := rfl
  unfold format_provider_name
  rw [hdata]
  rcases hp with h | h | h | h
  · subst h
    rw [List.nil_append, removeAll_of_hasOcc_false _ _ hA,
      removeAll_of_hasOcc_false _ _ hOC, removeAll_of_hasOcc_false _ _ hO]
  · subst h
    rw [removeAll_append_head anthropicPat rest (by decide),
      removeAll_of_hasOcc_false _ _ hA, removeAll_of_hasOcc_false _ _ hOC,
      removeAll_of_hasOcc_false _ _ hO]
  · subst h
    have e1 : hasOcc anthropicPat (openaiChatPat ++ rest) = false := by
      rw [hasOcc_anthropic_openaiChat]
      exact hA
    rw [removeAll_of_hasOcc_false _ _ e1,
      removeAll_append_head openaiChatPat rest (by decide),
      removeAll_of_hasOcc_false _ _ hOC, removeAll_of_hasOcc_false _ _ hO]
  · subst h
    have e1 : hasOcc anthropicPat (openaiPat ++ rest) = false := by
      rw [hasOcc_anthropic_openai]
      exact hA
    have e2 : hasOcc openaiChatPat (openaiPat ++ rest) = false := by
      rw [hasOcc_openaiChat_openai, hchat rfl, hOC]
      rfl
    rw [removeAll_of_hasOcc_false _ _ e1, removeAll_of_hasOcc_false _ _ e2,
      removeAll_append_head openaiPat rest (by decide),
      removeAll_of_hasOcc_false _ _ hO]

theorem format_strips_known_pat_witness :
    (hasOcc anthropicPat ("claude-3".data) = false ∧
      hasOcc openaiChatPat ("claude-3".data) = false ∧
      hasOcc openaiPat ("claude-3".data) = false) ∧
    format_provider_name (String.mk (anthropicPat ++ "claude-3".data)) =
      String.mk ("claude-3".data) :=
  ⟨⟨by decide, by decide, by decide⟩,
   format_strips_known_pat anthropicPat ("claude-3".data) (Or.inr (Or.inl rfl))
     (by decide) (by decide) (by decide) (by decide)⟩

/-- Claim C7 (counterexample): display-name formatting is not idempotent:
removing "anthropic:" from "antanthropic:hropic:" creates a fresh
"anthropic:" occurrence, which a second application removes. -/
theorem format_not_idempotent_counterexample :
    format_provider_name (format_provider_name ("antanthropic:hropic:")) ≠
      format_provider_name ("antanthropic:hropic:") := by
  decide

/-- Claim C7 (amended): display-name formatting is idempotent on every
identifier whose formatted result contains no occurrence of "anthropic:",
"openai:chat:" or "openai:"; re-application can differ only by stripping
occurrences newly formed by the first application. -/
theorem format_idempotent_of_clean (s : String)
    (h1 : hasOcc anthropicPat (format_provider_name s).data = false)
    (h2 : hasOcc openaiChatPat (format_provider_name s).data = false)
    (h3 : hasOcc openaiPat (format_provider_name s).data = false) :
    format_provider_name (format_provider_name s) = format_provider_name s := by
  show String.mk (removeAll openaiPat (removeAll openaiChatPat
    (removeAll anthropicPat (format_provider_name s).data))) = format_provider_name s
  rw [removeAll_of_hasOcc_false _ _ h1, removeAll_of_hasOcc_false _ _ h2,
    removeAll_of_hasOcc_false _ _ h3]

theorem format_idempotent_of_clean_witness :
    (hasOcc anthropicPat (format_provider_name ("anthropic:claude")).data = false ∧
      hasOcc openaiChatPat (format_provider_name ("anthropic:claude")).data = false ∧
      hasOcc openaiPat (format_provider_name ("anthropic:claude")).data = false) ∧
    format_provider_name (format_provider_name ("anthropic:claude")) =
      format_provider_name ("anthropic:claude") :=
  ⟨⟨by decide, by decide, by decide⟩,
   format_idempotent_of_clean ("anthropic:claude") (by decide) (by decide) (by decide)⟩

end AnalyzeTokens
